import Mathlib

/-!
Verification of the `slinky` synchronization engine (the "stow" planner /
executor and the daemon's conflict resolver and singleton lifecycle),
shallowly embedded from `src/stow.rs`, `src/daemon.rs` and `src/config.rs`.

Strings are modelled as `List Char` (byte positions of the Rust code become
character positions). The filesystem is modelled as an association list from
paths (component lists) to file kinds; `lstat` is the non-following lookup,
`resolveK` follows symlink chains with fuel (the OS bounds chains by ELOOP).
The empty path plays the role of the filesystem root, which always exists as
a directory.
-/

deriving instance DecidableEq for Except

namespace Slinky

/-- Character strings, mirroring Rust `&str` contents. -/
abbrev Str := List Char

/-- A filesystem path as its list of components (`a/b/c` is `[a,b,c]`). -/
abbrev FsPath := List Str

/-- What an `lstat` of a path can find: a regular file (with contents),
a directory, or a symbolic link holding a link value. -/
inductive FileKind where
  | file (content : Str)
  | dir
  | symlink (dest : FsPath)
deriving DecidableEq, Repr

/-- The filesystem: an association list from paths to kinds. Earlier
entries shadow later ones. -/
abbrev FS := List (FsPath × FileKind)

/-- First entry for a path, if any. -/
def fsLookup : FS → FsPath → Option FileKind
  | [], _ => none
  | e :: rest, p => if e.1 = p then some e.2 else fsLookup rest p

/-- Non-following stat. The empty path is the always-existing root dir. -/
def lstat (fs : FS) (p : FsPath) : Option FileKind :=
  if p = [] then some FileKind.dir else fsLookup fs p

/-- Follow symlink chains (with fuel) to the final file kind, `none` if the
path is missing or the chain dangles or is too long. -/
def resolveK : Nat → FS → FsPath → Option FileKind
  | 0, _, _ => none
  | n + 1, fs, p =>
    match lstat fs p with
    | some (FileKind.symlink d) => resolveK n fs d
    | k => k

/-- Rust `Path::exists()`: metadata after following symlinks succeeds.
In particular a dangling symlink does NOT exist in this sense. -/
def pathExists (fs : FS) (p : FsPath) : Bool :=
  (resolveK 64 fs p).isSome

/-- Rust `Path::is_symlink()`: the lstat kind is a symlink (no following). -/
def is_symlink (fs : FS) (p : FsPath) : Bool :=
  match lstat fs p with
  | some (FileKind.symlink _) => true
  | _ => false

/-- Rust `Path::is_dir()`: resolves (following symlinks) to a directory. -/
def is_dir (fs : FS) (p : FsPath) : Bool :=
  match resolveK 64 fs p with
  | some FileKind.dir => true
  | _ => false

/-- Rust `fs::read_link`. -/
def read_link (fs : FS) (p : FsPath) : Option FsPath :=
  match lstat fs p with
  | some (FileKind.symlink d) => some d
  | _ => none

/-- Remove every entry for a path (`fs::remove_file` on the map). -/
def remove_file (fs : FS) (p : FsPath) : FS :=
  fs.filter (fun e => decide (e.1 ≠ p))

/-- Names of the immediate children of a directory path, in entry order
(the order `fs::read_dir` happens to yield). -/
def read_dir (fs : FS) (p : FsPath) : List Str :=
  fs.filterMap (fun e => if e.1.dropLast = p ∧ e.1 ≠ [] then e.1.getLast? else none)

/-! ## stow.rs data model -/

/-- `stow.rs` `OpType`. The `Skip` reason is the literal Rust string. -/
inductive OpType where
  | Create
  | Remove
  | Skip (reason : Str)
deriving DecidableEq, Repr

/-- `stow.rs` `SymlinkOp`. -/
structure SymlinkOp where
  source : FsPath
  target : FsPath
  op_type : OpType
deriving DecidableEq, Repr

/-- `stow.rs` `StowError` (messages elided, constructors kept). -/
inductive StowError where
  | IoError
  | InvalidPackage
  | ConflictDetected
  | InvalidPath
deriving DecidableEq, Repr

/-- Reason string used by `determine_operation` for an existing link. -/
def reasonAlreadyLinked : Str := "Already linked correctly".toList

/-- Reason string used by the scanner for ignored entries. -/
def reasonIgnored : Str := "Ignored by .stow-local-ignore".toList

/-- `stow.rs` `determine_operation`: classify one (source file, target path)
pair. Mirrors the Rust order of checks: `exists()` (following symlinks)
first, then `is_symlink()` / `read_link`. -/
def determine_operation (fs : FS) (source target : FsPath) :
    Except StowError OpType :=
  if ¬ pathExists fs target then Except.ok OpType.Create
  else if is_symlink fs target then
    match read_link fs target with
    | some target_link =>
      if target_link = source then Except.ok (OpType.Skip reasonAlreadyLinked)
      else Except.error StowError.ConflictDetected
    | none => Except.error StowError.IoError
  else Except.error StowError.ConflictDetected

/-! ## Ignore matcher (`is_ignored`, `glob_match`) -/

/-- Rust `str::split(sep)` over character lists. Always non-empty. -/
def splitChar (sep : Char) : Str → List Str
  | [] => [[]]
  | c :: rest =>
    if c = sep then [] :: splitChar sep rest
    else
      match splitChar sep rest with
      | [] => [[c]]
      | h :: t => (c :: h) :: t

/-- Rust `str::contains(char)`. -/
def strContainsChar (s : Str) (c : Char) : Bool :=
  s.any (fun x => x = c)

/-- Rust `str::contains(&str)`: substring occurrence. -/
def strContainsSub (hay needle : Str) : Bool :=
  (List.range (hay.length + 1)).any (fun i => needle.isPrefixOf (hay.drop i))

/-- Rust `str::find(&str)`: position of the first occurrence. -/
def findPos (hay needle : Str) : Option Nat :=
  (List.range (hay.length + 1)).find? (fun i => needle.isPrefixOf (hay.drop i))

/-- The loop body of `stow.rs` `glob_match`: walk the `*`-separated parts
with their enumerate index `i` (out of `n` parts) and the current text
position. Empty parts are skipped; the first part is anchored at the start,
the last is matched by `ends_with` on the remaining text, middle parts are
found left to right. -/
def glob_go (text : Str) : List Str → Nat → Nat → Nat → Bool
  | [], _, _, _ => true
  | part :: rest, i, n, pos =>
    if part = [] then glob_go text rest (i + 1) n pos
    else if i = 0 then
      if part.isPrefixOf (text.drop pos) then
        glob_go text rest (i + 1) n (pos + part.length)
      else false
    else if i = n - 1 then part.isSuffixOf (text.drop pos)
    else
      match findPos (text.drop pos) part with
      | some j => glob_go text rest (i + 1) n (pos + j + part.length)
      | none => false

/-- `stow.rs` `glob_match`. -/
def glob_match (text pattern : Str) : Bool :=
  let pattern_parts := splitChar '*' pattern
  if pattern_parts = [] then text = []
  else glob_go text pattern_parts 0 pattern_parts.length 0

/-- Path rendered the way `Path::to_string_lossy` renders a relative path:
components joined with `/`. -/
def pathStr (p : FsPath) : Str :=
  (p.intersperse ("/".toList)).flatten

/-- Rust `Path::file_name()` for relative paths: the last component. -/
def file_name (p : FsPath) : Option Str :=
  p.getLast?

/-- `stow.rs` `is_ignored`: any rule matches, a wildcard rule through
`glob_match`, a literal rule as a substring of the rendered path; every
rule (wildcard or not) also matches when it equals the final component. -/
def is_ignored (path : FsPath) (patterns : List Str) : Bool :=
  patterns.any (fun pattern =>
    (if strContainsChar pattern '*' then glob_match (pathStr path) pattern
     else strContainsSub (pathStr path) pattern)
    || (match file_name path with
        | some n => n = pattern
        | none => false))

/-! ## Operation executor (`execute_operations`) -/

/-- Executor result lines, one constructor per `format!` call in
`execute_operations` (formatting elided, the mentioned paths kept). -/
inductive Msg where
  | dryRunCreate (target source : FsPath)
  | created (target source : FsPath)
  | dryRunRemove (target : FsPath)
  | removed (target : FsPath)
  | skippedNonSymlink (target : FsPath)
  | skipped (target : FsPath) (reason : Str)
deriving DecidableEq, Repr

/-- The target path a result line mentions. -/
def Msg.target : Msg → FsPath
  | Msg.dryRunCreate t _ => t
  | Msg.created t _ => t
  | Msg.dryRunRemove t => t
  | Msg.removed t => t
  | Msg.skippedNonSymlink t => t
  | Msg.skipped t _ => t

/-- Rust `Path::parent()`: drop the last component; the root has none. -/
def parentOf (p : FsPath) : Option FsPath :=
  match p with
  | [] => none
  | _ => some p.dropLast

/-- The loop of `fs::create_dir_all`: create each missing component of
`comps` below `base` in turn; an existing non-directory in the way is an
error (already-created ancestors persist). -/
def create_dir_all_go (fs : FS) (base : FsPath) :
    List Str → FS × Except StowError Unit
  | [] => (fs, Except.ok ())
  | c :: rest =>
    let q := base ++ [c]
    match lstat fs q with
    | some FileKind.dir => create_dir_all_go fs q rest
    | some (FileKind.symlink _) =>
      if is_dir fs q then create_dir_all_go fs q rest
      else (fs, Except.error StowError.IoError)
    | some (FileKind.file _) => (fs, Except.error StowError.IoError)
    | none => create_dir_all_go ((q, FileKind.dir) :: fs) q rest

/-- Rust `fs::create_dir_all`. -/
def create_dir_all (fs : FS) (p : FsPath) : FS × Except StowError Unit :=
  create_dir_all_go fs [] p

/-- One iteration of the `execute_operations` loop over one operation.
`Create` (real run) creates missing parent directories, then the symlink —
which fails like `symlink(2)` when any entry (even a dangling link) already
occupies the target, or when the parent is not a directory. `Remove` (real
run) deletes the target only when it is currently a symlink. Dry runs and
`Skip` only produce messages. -/
def exec_one (fs : FS) (op : SymlinkOp) (dry_run : Bool) :
    FS × Except StowError Msg :=
  match op.op_type with
  | OpType.Create =>
    if dry_run then (fs, Except.ok (Msg.dryRunCreate op.target op.source))
    else
      let prep : FS × Except StowError Unit :=
        match parentOf op.target with
        | none => (fs, Except.ok ())
        | some par =>
          if pathExists fs par then (fs, Except.ok ())
          else create_dir_all fs par
      match prep with
      | (fs1, Except.error e) => (fs1, Except.error e)
      | (fs1, Except.ok _) =>
        if (lstat fs1 op.target).isSome then (fs1, Except.error StowError.IoError)
        else
          match parentOf op.target with
          | none => (fs1, Except.error StowError.IoError)
          | some par =>
            if is_dir fs1 par then
              ((op.target, FileKind.symlink op.source) :: fs1,
                Except.ok (Msg.created op.target op.source))
            else (fs1, Except.error StowError.IoError)
  | OpType.Remove =>
    if dry_run then (fs, Except.ok (Msg.dryRunRemove op.target))
    else if is_symlink fs op.target then
      (remove_file fs op.target, Except.ok (Msg.removed op.target))
    else (fs, Except.ok (Msg.skippedNonSymlink op.target))
  | OpType.Skip reason => (fs, Except.ok (Msg.skipped op.target reason))

/-- `stow.rs` `execute_operations`: run the operations in order, collecting
one result line per operation; the first failure aborts the loop (mutations
already performed persist). -/
def execute_operations (fs : FS) (ops : List SymlinkOp) (dry_run : Bool) :
    FS × Except StowError (List Msg) :=
  match ops with
  | [] => (fs, Except.ok [])
  | op :: rest =>
    match exec_one fs op dry_run with
    | (fs1, Except.error e) => (fs1, Except.error e)
    | (fs1, Except.ok m) =>
      match execute_operations fs1 rest dry_run with
      | (fs2, Except.ok ms) => (fs2, Except.ok (m :: ms))
      | (fs2, Except.error e) => (fs2, Except.error e)

/-! ## Package scanner (`scan_package_recursive`, `analyze_package`) -/

/-- The ignore-rule file name. -/
def dotStowLocalIgnore : Str := ".stow-local-ignore".toList

/-- Rust `Path::strip_prefix`. -/
def stripPref (root p : FsPath) : Option FsPath :=
  if root.isPrefixOf p then some (p.drop root.length) else none

/-- ASCII whitespace (the fragment of Rust `char::is_whitespace` the
ignore-file format can contain). -/
def isWs (c : Char) : Bool :=
  c = ' ' ∨ c = '\t' ∨ c = '\n' ∨ c = '\r'

/-- Rust `str::trim`. -/
def trim (s : Str) : Str :=
  ((s.dropWhile isWs).reverse.dropWhile isWs).reverse

/-- `stow.rs` `load_stow_ignore`: read `.stow-local-ignore` in the package
root if present; keep each trimmed, non-empty, non-`#` line as a rule.
A missing file yields the empty rule set. -/
def load_stow_ignore (fs : FS) (package_path : FsPath) :
    Except StowError (List Str) :=
  let ignore_file := package_path ++ [dotStowLocalIgnore]
  if pathExists fs ignore_file then
    match resolveK 64 fs ignore_file with
    | some (FileKind.file content) =>
      Except.ok ((splitChar '\n' content).filterMap (fun line =>
        let t := trim line
        if t ≠ [] ∧ t.head? ≠ some '#' then some t else none))
    | _ => Except.error StowError.IoError
  else Except.ok []

/-- The recursive walk of `scan_package_recursive`, processing the pending
entry names of the current directory. Every recursive call decreases the
fuel (always sufficient in reality; exhaustion is an error). Entries named
`.stow-local-ignore` are skipped outright; ignored entries yield a `Skip`
operation without recursion; other directories are recursed into; other
files are classified by `determine_operation`. -/
def scan_go : Nat → FS → FsPath → FsPath → FsPath → List Str → List Str →
    Except StowError (List SymlinkOp)
  | 0, _, _, _, _, _, _ => Except.error StowError.IoError
  | _ + 1, _, _, _, _, _, [] => Except.ok []
  | fuel + 1, fs, root, cur, tgt, ign, name :: rest =>
    if name = dotStowLocalIgnore then scan_go fuel fs root cur tgt ign rest
    else
      let path := cur ++ [name]
      match stripPref root path with
      | none => Except.error StowError.InvalidPath
      | some rel =>
        let target_path := tgt ++ rel
        if is_ignored rel ign then
          match scan_go fuel fs root cur tgt ign rest with
          | Except.ok tl =>
            Except.ok (⟨path, target_path, OpType.Skip reasonIgnored⟩ :: tl)
          | Except.error e => Except.error e
        else if is_dir fs path then
          match scan_go fuel fs root path tgt ign (read_dir fs path) with
          | Except.error e => Except.error e
          | Except.ok sub =>
            match scan_go fuel fs root cur tgt ign rest with
            | Except.error e => Except.error e
            | Except.ok tl => Except.ok (sub ++ tl)
        else
          match determine_operation fs path target_path with
          | Except.error e => Except.error e
          | Except.ok opk =>
            match scan_go fuel fs root cur tgt ign rest with
            | Except.error e => Except.error e
            | Except.ok tl => Except.ok (⟨path, target_path, opk⟩ :: tl)

/-- `stow.rs` `scan_package_recursive`. -/
def scan_package_recursive (fuel : Nat) (fs : FS)
    (package_root current_path target_dir : FsPath) (ign : List Str) :
    Except StowError (List SymlinkOp) :=
  scan_go fuel fs package_root current_path target_dir ign
    (read_dir fs current_path)

/-- `stow.rs` `analyze_package`: validate the package root, load the ignore
rules, and scan. -/
def analyze_package (fuel : Nat) (fs : FS) (package_path target_dir : FsPath) :
    Except StowError (List SymlinkOp) :=
  if ¬ pathExists fs package_path then Except.error StowError.InvalidPackage
  else if ¬ is_dir fs package_path then Except.error StowError.InvalidPackage
  else
    match load_stow_ignore fs package_path with
    | Except.error e => Except.error e
    | Except.ok ign =>
      scan_package_recursive fuel fs package_path package_path target_dir ign

/-! ## config.rs -/

/-- `config.rs` `ConflictResolution`. -/
inductive ConflictResolution where
  | Backup
  | Skip
  | Overwrite
deriving DecidableEq, Repr

/-- `config.rs` `AutoSyncConfig`. -/
structure AutoSyncConfig where
  enabled : Bool
  auto_link_new_packages : Bool
  auto_git_pull : Bool
  conflict_resolution : ConflictResolution
  debounce_ms : Nat
deriving DecidableEq, Repr

/-- `config.rs` `Config` (the fields the daemon consults). -/
structure Config where
  stow_dir : FsPath
  target_dir : FsPath
  auto_sync : AutoSyncConfig
deriving DecidableEq, Repr

/-! ## daemon.rs: conflict resolver -/

/-- Path of the backup copy: the path with `.backup` appended to the final
component (`format!` on the displayed path). -/
def backup_file_path (p : FsPath) : FsPath :=
  match p.getLast? with
  | some last => p.dropLast ++ [last ++ ".backup".toList]
  | none => [".backup".toList]

/-- `daemon.rs` `backup_file`: `fs::copy(path, path + ".backup")`. Reading
follows symlinks; copying a directory fails; the destination is replaced. -/
def backup_file (fs : FS) (p : FsPath) : FS × Except Unit Unit :=
  match resolveK 64 fs p with
  | some (FileKind.file c) =>
    ((backup_file_path p, FileKind.file c) :: remove_file fs (backup_file_path p),
      Except.ok ())
  | _ => (fs, Except.error ())

/-- Remove a path and everything below it (`fs::remove_dir_all`). -/
def remove_dir_all (fs : FS) (p : FsPath) : FS :=
  fs.filter (fun e => decide (¬ p.IsPrefix e.1))

/-- `daemon.rs` `handle_conflict`: the conflict resolver. Returns the
mutated filesystem and `proceed` (or an I/O error). `Backup` copies then
deletes an existing non-symlink target; `Skip` does nothing and refuses;
`Overwrite` deletes whatever exists (recursively for a real directory). -/
def handle_conflict (fs : FS) (target : FsPath)
    (resolution : ConflictResolution) : FS × Except Unit Bool :=
  match resolution with
  | ConflictResolution.Backup =>
    if pathExists fs target && !(is_symlink fs target) then
      match backup_file fs target with
      | (fs1, Except.error _) => (fs1, Except.error ())
      | (fs1, Except.ok _) =>
        if lstat fs1 target = some FileKind.dir then (fs1, Except.error ())
        else (remove_file fs1 target, Except.ok true)
    else (fs, Except.ok true)
  | ConflictResolution.Skip => (fs, Except.ok false)
  | ConflictResolution.Overwrite =>
    if pathExists fs target then
      if is_dir fs target && !(is_symlink fs target) then
        (remove_dir_all fs target, Except.ok true)
      else
        if lstat fs target = some FileKind.dir then (fs, Except.error ())
        else (remove_file fs target, Except.ok true)
    else (fs, Except.ok true)

/-! ## daemon.rs: auto-link -/

/-- The conflict-resolution loop of `link_package_auto`: for each planned
`Create` whose target currently exists, invoke the resolver for its side
effects. The returned decision (`Ok true`, `Ok false`, or an error) is
discarded — `continue` is the last statement of the loop body — so only the
filesystem mutations remain. -/
def conflict_pass (fs : FS) (res : ConflictResolution) :
    List SymlinkOp → FS
  | [] => fs
  | op :: rest =>
    let fs1 :=
      if op.op_type = OpType.Create ∧ pathExists fs op.target then
        (handle_conflict fs op.target res).1
      else fs
    conflict_pass fs1 res rest

/-- Count of result lines reading `Created symlink: ...`. -/
def count_created (ms : List Msg) : Nat :=
  (ms.filter (fun m =>
    match m with
    | Msg.created _ _ => true
    | _ => false)).length

/-- `daemon.rs` `link_package_auto` after its `analyze_package` call: the
conflict-resolution pass over the planned operations, then a real
(`dry_run = false`) execution of the full, unfiltered operation list,
returning the number of created symlinks. The plan is passed in explicitly
because the daemon races external filesystem changes between planning and
execution. -/
def link_package_post_plan (fs : FS) (operations : List SymlinkOp)
    (config : Config) : FS × Except StowError Nat :=
  let fs1 := conflict_pass fs config.auto_sync.conflict_resolution operations
  match execute_operations fs1 operations false with
  | (fs2, Except.error e) => (fs2, Except.error e)
  | (fs2, Except.ok results) => (fs2, Except.ok (count_created results))

/-- `daemon.rs` `link_package_auto`: plan, resolve conflicts, execute. -/
def link_package_auto (fuel : Nat) (fs : FS)
    (package_path target_dir : FsPath) (config : Config) :
    FS × Except StowError Nat :=
  match analyze_package fuel fs package_path target_dir with
  | Except.error e => (fs, Except.error e)
  | Except.ok operations => link_package_post_plan fs operations config

/-! ## daemon.rs: singleton lifecycle -/

/-- `daemon.rs` `DaemonError` (payload-free where the payload is a
message). -/
inductive DaemonError where
  | AlreadyRunning (pid : Nat)
  | NotRunning
  | IoError
  | ConfigError
  | Watch
deriving DecidableEq, Repr

/-- The daemon-visible world outside the stow trees: the PID marker file's
contents (if the file exists) and the process-liveness oracle behind
`is_process_running` (`kill -0`). -/
structure DWorld where
  pid_file : Option Str
  alive : Nat → Bool

/-- Decimal digits of a number to a `u32` value, mirroring
`str::parse::<u32>`: an optional `+` sign, then at least one digit, value
below `2^32`. -/
def parse_u32 (s : Str) : Option Nat :=
  let t := match s with
    | '+' :: rest => rest
    | _ => s
  if t ≠ [] ∧ t.all Char.isDigit then
    let v := t.foldl (fun a c => a * 10 + (c.toNat - 48)) 0
    if v < 2 ^ 32 then some v else none
  else none

/-- `daemon.rs` `get_daemon_pid`: read and parse the PID marker; a live pid
is returned, a pid whose process is dead is stale — the marker file is
removed and `none` returned. A missing or unparsable marker is `none`
(without removal). -/
def get_daemon_pid (w : DWorld) : DWorld × Option Nat :=
  match w.pid_file with
  | none => (w, none)
  | some contents =>
    match parse_u32 (trim contents) with
    | none => (w, none)
    | some pid =>
      if w.alive pid then (w, some pid)
      else ({ w with pid_file := none }, none)

/-- Decimal rendering of the daemon's own pid (`write!("{}", id)`). -/
def renderPid (pid : Nat) : Str :=
  Nat.toDigits 10 pid

/-- The startup prefix of `daemon.rs` `run_daemon`, up to and including
`write_pid_file`: refuse with `AlreadyRunning` when a live daemon holds the
PID marker, then validate the configuration (it must load, auto-sync must
be enabled, the stow dir must exist) and write this process's pid. -/
def run_daemon_startup (w : DWorld) (cfg : Except Unit Config) (fs : FS)
    (self_pid : Nat) : DWorld × Except DaemonError Unit :=
  match get_daemon_pid w with
  | (w1, some pid) => (w1, Except.error (DaemonError.AlreadyRunning pid))
  | (w1, none) =>
    match cfg with
    | Except.error _ => (w1, Except.error DaemonError.ConfigError)
    | Except.ok c =>
      if ¬ c.auto_sync.enabled then (w1, Except.error DaemonError.ConfigError)
      else if ¬ pathExists fs c.stow_dir then
        (w1, Except.error DaemonError.ConfigError)
      else ({ w1 with pid_file := some (renderPid self_pid) }, Except.ok ())

/-! ## Concrete instances used by the closed theorems -/

/-- The message a dry run produces for one operation. -/
def dryMsg (op : SymlinkOp) : Msg :=
  match op.op_type with
  | OpType.Create => Msg.dryRunCreate op.target op.source
  | OpType.Remove => Msg.dryRunRemove op.target
  | OpType.Skip r => Msg.skipped op.target r

/-- Concrete filesystems for the closed theorems below. -/
def c9fs : FS :=
  [(["t".toList, "f".toList], FileKind.symlink ["p".toList, "x".toList]),
   (["p".toList, "x".toList], FileKind.file [])]

/-- A dangling symlink at the target: it points to `u/g`, which has no
entry. -/
def danglingFS : FS :=
  [(["t".toList, "f".toList], FileKind.symlink ["u".toList, "g".toList])]

/-- A symlink at the target pointing at an existing file other than the
source. -/
def foreignLinkFS : FS :=
  [(["t".toList, "f".toList], FileKind.symlink ["u".toList, "g".toList]),
   (["u".toList, "g".toList], FileKind.file [])]

/-- Failing input for C2: the daemon's view of the world at
conflict-resolution time — `t/f` is occupied by a plain file, `t/g` is
free, and the plan (produced before `t/f` appeared) holds a `Create` for
each. -/
def c2fs : FS :=
  [(["t".toList], FileKind.dir),
   (["t".toList, "f".toList], FileKind.file ['x']),
   (["pkg".toList], FileKind.dir),
   (["pkg".toList, "f".toList], FileKind.file ['a']),
   (["pkg".toList, "g".toList], FileKind.file ['b'])]

/-- The planned operations of the package for the C2 failing input. -/
def c2ops : List SymlinkOp :=
  [⟨["pkg".toList, "f".toList], ["t".toList, "f".toList], OpType.Create⟩,
   ⟨["pkg".toList, "g".toList], ["t".toList, "g".toList], OpType.Create⟩]

/-- A configuration with the `Skip` conflict policy. -/
def cfgSkip : Config :=
  ⟨["s".toList], ["t".toList], ⟨true, true, true, ConflictResolution.Skip, 1000⟩⟩

/-- A world whose PID marker names the live process 123. -/
def wLive : DWorld := ⟨some ("123".toList), fun p => decide (p = 123)⟩

/-- A world whose PID marker names a dead process. -/
def wStale : DWorld := ⟨some ("123".toList), fun _ => false⟩

/-- A valid configuration whose stow dir exists in `fsStow`. -/
def okCfg : Config :=
  ⟨["s".toList], ["t".toList], ⟨true, true, true, ConflictResolution.Backup, 1000⟩⟩

/-- The filesystem holding `okCfg`'s stow dir. -/
def fsStow : FS := [(["s".toList], FileKind.dir)]

/-- A package file `pkg/f` with an empty target dir `t`. -/
def c3fs : FS :=
  [(["pkg".toList], FileKind.dir),
   (["pkg".toList, "f".toList], FileKind.file []),
   (["t".toList], FileKind.dir)]

/-- `c3fs` after the Executor created the planned symlink. -/
def c3fsAfter : FS :=
  (["t".toList, "f".toList], FileKind.symlink ["pkg".toList, "f".toList]) :: c3fs

/-- A package with a `.stow-local-ignore` file both at the root and inside
the subdirectory `d`. -/
def c10fs : FS :=
  [(["pkg".toList], FileKind.dir),
   (["pkg".toList, ".stow-local-ignore".toList], FileKind.file ("*.tmp".toList)),
   (["pkg".toList, "d".toList], FileKind.dir),
   (["pkg".toList, "d".toList, ".stow-local-ignore".toList], FileKind.file []),
   (["pkg".toList, "d".toList, "a.tmp".toList], FileKind.file []),
   (["pkg".toList, "d".toList, "keep".toList], FileKind.file []),
   (["t".toList], FileKind.dir)]

/-- What the scanner emits for `c10fs` — no entry for either ignore file. -/
def c10ops : List SymlinkOp :=
  [⟨["pkg".toList, "d".toList, "a.tmp".toList],
    ["t".toList, "d".toList, "a.tmp".toList], OpType.Skip reasonIgnored⟩,
   ⟨["pkg".toList, "d".toList, "keep".toList],
    ["t".toList, "d".toList, "keep".toList], OpType.Create⟩]

/-! ## Helper lemmas -/


theorem lstat_cons (q : FsPath) (kk : FileKind) (fs : FS) (p : FsPath)
    (hp : p ≠ []) :
    lstat ((q, kk) :: fs) p = if q = p then some kk else lstat fs p := by
  simp [lstat, fsLookup, hp]

theorem resolveK_succ_symlink {fs : FS} {p d : FsPath} (n : Nat)
    (h : lstat fs p = some (FileKind.symlink d)) :
    resolveK (n + 1) fs p = resolveK n fs d := by
  simp [resolveK, h]

theorem resolveK_succ_file {fs : FS} {p : FsPath} {c : Str} (n : Nat)
    (h : lstat fs p = some (FileKind.file c)) :
    resolveK (n + 1) fs p = some (FileKind.file c) := by
  simp [resolveK, h]

theorem lstat_ne_nil {fs : FS} {p : FsPath}
    (hne : lstat fs p ≠ some FileKind.dir) :
    p ≠ [] := by
  intro hp
  subst hp
  exact hne (by simp [lstat])


/-- `create_dir_all_go` only inserts entries at paths that had no entry, so
every existing `lstat` answer survives it. -/
theorem create_dir_all_go_preserves (comps : List Str) (fs : FS)
    (base p : FsPath) (k : FileKind) (h : lstat fs p = some k) :
    lstat (create_dir_all_go fs base comps).1 p = some k := by
  induction comps generalizing fs base with
  | nil => exact h
  | cons c rest ih =>
    simp only [create_dir_all_go]
    cases hq : lstat fs (base ++ [c]) with
    | none =>
      apply ih
      have hq2 : fsLookup fs (base ++ [c]) = none := by
        have hne : base ++ [c] ≠ [] := by simp
        simpa [lstat, hne] using hq
      by_cases hp : p = []
      · simpa [lstat, hp] using h
      · have h2 : fsLookup fs p = some k := by simpa [lstat, hp] using h
        have hne : ¬ (base ++ [c] = p) := fun he => by
          rw [he, h2] at hq2; cases hq2
        simp [lstat, fsLookup, hp, hne, h2]
    | some kk =>
      cases kk with
      | file _ => simpa using h
      | dir => exact ih fs (base ++ [c]) h
      | symlink _ =>
        by_cases hd : is_dir fs (base ++ [c]) <;> simp [hd]
        · exact ih fs (base ++ [c]) h
        · exact h

theorem exec_one_create_ok {fs fs2 : FS} {source target : FsPath} {m : Msg}
    (h : exec_one fs ⟨source, target, OpType.Create⟩ false = (fs2, Except.ok m)) :
    ∃ fs1, fs2 = (target, FileKind.symlink source) :: fs1 ∧
      m = Msg.created target source ∧
      lstat fs1 target = none ∧
      (∀ p k, lstat fs p = some k → lstat fs1 p = some k) := by
  simp only [exec_one, Bool.false_eq_true, if_false] at h
  rcases hpar : parentOf target with _ | par <;> rw [hpar] at h <;>
    simp only [] at h
  · simp at h
  · by_cases hex : pathExists fs par
    · rw [if_pos hex] at h
      simp only [] at h
      split at h
      · simp at h
      · rename_i hl
        split at h
        · injection h with hfs hm
          injection hm with hm
          exact ⟨fs, hfs.symm, hm.symm, Option.not_isSome_iff_eq_none.mp hl,
            fun p k hk => hk⟩
        · simp at h
    · rw [if_neg hex] at h
      rcases hcda : create_dir_all fs par with ⟨fs1, r⟩
      rw [hcda] at h
      cases r with
      | error e => simp at h
      | ok u =>
        simp only [] at h
        split at h
        · simp at h
        · rename_i hl
          split at h
          · injection h with hfs hm
            injection hm with hm
            refine ⟨fs1, hfs.symm, hm.symm,
              Option.not_isSome_iff_eq_none.mp hl, ?_⟩
            intro p k hk
            have hpres := create_dir_all_go_preserves par fs [] p k hk
            rw [show create_dir_all_go fs [] par = create_dir_all fs par from rfl,
              hcda] at hpres
            exact hpres
          · simp at h


/-! ## Claim theorems -/

/-- C5: a dry-run Executor call mutates nothing — the filesystem comes back
unchanged — and returns exactly the descriptive messages, one per
operation. -/
theorem execute_operations_dry_run_pure (fs : FS) (ops : List SymlinkOp) :
    execute_operations fs ops true = (fs, Except.ok (ops.map dryMsg)) := by
  induction ops generalizing fs with
  | nil => rfl
  | cons op rest ih =>
    have h1 : exec_one fs op true = (fs, Except.ok (dryMsg op)) := by
      rcases op with ⟨s, t, k⟩
      cases k <;> rfl
    simp [execute_operations, h1, ih fs, dryMsg]

/-- C6: a real-run `Remove` deletes the target only when it is currently a
symlink; a non-symlink target is left in place and reported as skipped.
Stated for the per-operation step and for a one-element operation list. -/
theorem execute_remove_only_deletes_symlinks (fs : FS) (s t : FsPath) :
    exec_one fs ⟨s, t, OpType.Remove⟩ false =
      (if is_symlink fs t then (remove_file fs t, Except.ok (Msg.removed t))
       else (fs, Except.ok (Msg.skippedNonSymlink t))) ∧
    execute_operations fs [⟨s, t, OpType.Remove⟩] false =
      (if is_symlink fs t then (remove_file fs t, Except.ok [Msg.removed t])
       else (fs, Except.ok [Msg.skippedNonSymlink t])) := by
  constructor
  · by_cases h : is_symlink fs t <;> simp [exec_one, h]
  · by_cases h : is_symlink fs t <;> simp [execute_operations, exec_one, h]

/-- Every successful step reports the operation's own target path. -/
theorem exec_one_target {fs fs1 : FS} {op : SymlinkOp} {dry : Bool} {m : Msg}
    (h : exec_one fs op dry = (fs1, Except.ok m)) : m.target = op.target := by
  rcases op with ⟨s, t, k⟩
  cases k with
  | Create =>
    cases dry with
    | true =>
      have h2 : exec_one fs ⟨s, t, OpType.Create⟩ true =
          (fs, Except.ok (Msg.dryRunCreate t s)) := rfl
      rw [h2] at h
      injection h with hfs hm
      injection hm with hm
      rw [← hm]
      rfl
    | false =>
      obtain ⟨fsx, _, hm, _, _⟩ := exec_one_create_ok h
      rw [hm]
      rfl
  | Remove =>
    cases dry with
    | true =>
      have h2 : exec_one fs ⟨s, t, OpType.Remove⟩ true =
          (fs, Except.ok (Msg.dryRunRemove t)) := rfl
      rw [h2] at h
      injection h with hfs hm
      injection hm with hm
      rw [← hm]
      rfl
    | false =>
      by_cases hsym : is_symlink fs t <;> simp [exec_one, hsym] at h <;>
        rw [← h.2] <;> rfl
  | Skip r =>
    simp [exec_one] at h
    rw [← h.2]
    rfl

/-- C8: whenever the Executor returns a result list, it has exactly one
message per input operation, in input order (each message names the
corresponding operation's target). -/
theorem execute_operations_one_result_per_op (ops : List SymlinkOp) (fs : FS)
    (dry : Bool) (fs2 : FS) (msgs : List Msg)
    (h : execute_operations fs ops dry = (fs2, Except.ok msgs)) :
    msgs.map Msg.target = ops.map SymlinkOp.target ∧
    msgs.length = ops.length := by
  suffices hmap : msgs.map Msg.target = ops.map SymlinkOp.target by
    refine ⟨hmap, ?_⟩
    have := congrArg List.length hmap
    simpa using this
  induction ops generalizing fs fs2 msgs with
  | nil =>
    simp [execute_operations] at h
    simp [h.2.symm]
  | cons op rest ih =>
    simp only [execute_operations] at h
    rcases h1 : exec_one fs op dry with ⟨fsa, r⟩
    rw [h1] at h
    cases r with
    | error e => simp at h
    | ok m =>
      simp only [] at h
      rcases h2 : execute_operations fsa rest dry with ⟨fsb, r2⟩
      rw [h2] at h
      cases r2 with
      | error e => simp at h
      | ok ms =>
        simp only [] at h
        injection h with hfs hm
        injection hm with hm
        rw [← hm]
        simp only [List.map_cons]
        rw [exec_one_target h1, ih fsa fsb ms h2]

/-- C9: with the `Backup` policy, a target that is itself a symlink is left
exactly as it was — no backup copy, no removal — and the resolver still
answers `proceed = true`. -/
theorem handle_conflict_backup_leaves_symlink (fs : FS) (t : FsPath)
    (hex : pathExists fs t = true) (hsym : is_symlink fs t = true) :
    handle_conflict fs t ConflictResolution.Backup = (fs, Except.ok true) := by
  simp [handle_conflict, hex, hsym]

/-- Witness for C9: an existing symlink target under the `Backup` policy. -/
theorem handle_conflict_backup_leaves_symlink_w :
    handle_conflict c9fs ["t".toList, "f".toList] ConflictResolution.Backup =
      (c9fs, Except.ok true) :=
  handle_conflict_backup_leaves_symlink c9fs ["t".toList, "f".toList]
    (by decide) (by decide)

/-- Counterexample to C1 as stated: the target IS a symlink pointing
somewhere other than the source (a dangling one), yet `determine_operation`
classifies it as `Create`, because the Rust `exists()` check runs first and
follows symlinks. -/
theorem determine_operation_dangling_symlink_creates :
    is_symlink danglingFS ["t".toList, "f".toList] = true ∧
    read_link danglingFS ["t".toList, "f".toList] =
      some ["u".toList, "g".toList] ∧
    ["u".toList, "g".toList] ≠ ["p".toList, "f".toList] ∧
    determine_operation danglingFS ["p".toList, "f".toList]
      ["t".toList, "f".toList] = Except.ok OpType.Create := by
  decide

/-- C1 (amended): the classification of `determine_operation`, with
existence taken in the symlink-following sense of Rust `Path::exists` —
a target that does not exist in that sense (including a dangling symlink)
yields `Create`; an existing target that is a symlink to exactly the source
yields the skip; an existing target that is a symlink elsewhere, or not a
symlink at all, is a `ConflictDetected` error. -/
theorem determine_operation_classification (fs : FS) (source target : FsPath) :
    (pathExists fs target = false →
      determine_operation fs source target = Except.ok OpType.Create) ∧
    (pathExists fs target = true →
      lstat fs target = some (FileKind.symlink source) →
      determine_operation fs source target =
        Except.ok (OpType.Skip reasonAlreadyLinked)) ∧
    (∀ d, pathExists fs target = true →
      lstat fs target = some (FileKind.symlink d) → d ≠ source →
      determine_operation fs source target =
        Except.error StowError.ConflictDetected) ∧
    (pathExists fs target = true → is_symlink fs target = false →
      determine_operation fs source target =
        Except.error StowError.ConflictDetected) := by
  refine ⟨fun h => ?_, fun h1 h2 => ?_, fun d h1 h2 h3 => ?_, fun h1 h2 => ?_⟩
  · simp [determine_operation, h]
  · simp [determine_operation, h1, is_symlink, read_link, h2]
  · simp [determine_operation, h1, is_symlink, read_link, h2, h3]
  · simp [determine_operation, h1, h2]

/-- Witness for the amended C1: a live foreign symlink is a conflict. -/
theorem determine_operation_classification_w :
    determine_operation foreignLinkFS ["p".toList, "f".toList]
      ["t".toList, "f".toList] = Except.error StowError.ConflictDetected :=
  (determine_operation_classification foreignLinkFS ["p".toList, "f".toList]
    ["t".toList, "f".toList]).2.2.1 ["u".toList, "g".toList]
    (by decide) (by decide) (by decide)

/-- C2 evaluation at the failing input: the resolver answers
`proceed = false` for `t/f` and touches nothing, but `link_package_auto`
still hands the full operation list to the Executor; the symlink call at
the occupied target fails (EEXIST), the whole package run returns an I/O
error, and the remaining operation (`t/g`) is never performed — `t/g`
still has no entry in the unchanged result filesystem. -/
theorem link_package_auto_skip_policy_eval :
    handle_conflict c2fs ["t".toList, "f".toList] ConflictResolution.Skip =
      (c2fs, Except.ok false) ∧
    link_package_post_plan c2fs c2ops cfgSkip =
      (c2fs, Except.error StowError.IoError) ∧
    lstat c2fs ["t".toList, "g".toList] = none := by
  decide

/-- C7: the singleton gate of `run_daemon`. A PID marker naming a live
process makes startup fail with `AlreadyRunning` carrying that pid; a
marker naming a dead process is stale — it is removed, and startup (with a
loadable, enabled configuration whose stow dir exists) proceeds to write
this process's own pid. -/
theorem run_daemon_singleton (w : DWorld) (cfg : Except Unit Config)
    (fs : FS) (self_pid : Nat) (contents : Str) (pid : Nat)
    (hfile : w.pid_file = some contents)
    (hparse : parse_u32 (trim contents) = some pid) :
    (w.alive pid = true →
      run_daemon_startup w cfg fs self_pid =
        (w, Except.error (DaemonError.AlreadyRunning pid))) ∧
    (w.alive pid = false →
      get_daemon_pid w = ({ w with pid_file := none }, none) ∧
      ∀ c, cfg = Except.ok c → c.auto_sync.enabled = true →
        pathExists fs c.stow_dir = true →
        run_daemon_startup w cfg fs self_pid =
          ({ w with pid_file := some (renderPid self_pid) }, Except.ok ())) := by
  constructor
  · intro ha
    simp [run_daemon_startup, get_daemon_pid, hfile, hparse, ha]
  · intro ha
    refine ⟨by simp [get_daemon_pid, hfile, hparse, ha], ?_⟩
    intro c hc he hs
    subst hc
    simp [run_daemon_startup, get_daemon_pid, hfile, hparse, ha, he, hs]

/-- Witness for C7: both the live-pid refusal and the stale-pid cleanup. -/
theorem run_daemon_singleton_w :
    run_daemon_startup wLive (Except.ok okCfg) fsStow 7 =
      (wLive, Except.error (DaemonError.AlreadyRunning 123)) ∧
    run_daemon_startup wStale (Except.ok okCfg) fsStow 7 =
      ({ wStale with pid_file := some (renderPid 7) }, Except.ok ()) := by
  constructor
  · exact (run_daemon_singleton wLive (Except.ok okCfg) fsStow 7
      "123".toList 123 rfl (by decide)).1 (by decide)
  · exact ((run_daemon_singleton wStale (Except.ok okCfg) fsStow 7
      "123".toList 123 rfl (by decide)).2 rfl).2 okCfg rfl (by decide) (by decide)

/-- C3: after the Executor successfully performs a planned `Create` for a
package file (real run, nothing else changed), replanning classifies that
same file as already linked; and planning is a pure function of the
filesystem, so two runs against unchanged state coincide. -/
theorem create_then_replan_already_linked (fs : FS) (source target : FsPath)
    (c : Str) (fs2 : FS) (msgs : List Msg)
    (hsrc : lstat fs source = some (FileKind.file c))
    (hplan : determine_operation fs source target = Except.ok OpType.Create)
    (hexec : execute_operations fs [⟨source, target, OpType.Create⟩] false =
      (fs2, Except.ok msgs)) :
    determine_operation fs2 source target =
      Except.ok (OpType.Skip reasonAlreadyLinked) ∧
    (∀ fuel pkg tgt, analyze_package fuel fs pkg tgt =
      analyze_package fuel fs pkg tgt) := by
  refine ⟨?_, fun _ _ _ => rfl⟩
  simp only [execute_operations] at hexec
  rcases h1 : exec_one fs ⟨source, target, OpType.Create⟩ false with ⟨fsa, r⟩
  rw [h1] at hexec
  cases r with
  | error e => simp at hexec
  | ok m =>
    simp only [] at hexec
    injection hexec with hfs hm
    obtain ⟨fs1, hfsa, hmsg, hnone, hpres⟩ := exec_one_create_ok h1
    have hfs2 : fs2 = (target, FileKind.symlink source) :: fs1 := by
      rw [← hfs, hfsa]
    have hsrc1 : lstat fs1 source = some (FileKind.file c) :=
      hpres source _ hsrc
    have htgt_ne : target ≠ [] := by
      intro he
      rw [he] at hnone
      simp [lstat] at hnone
    have hsrc_ne : source ≠ [] := by
      intro he
      rw [he] at hsrc
      simp [lstat] at hsrc
    have htne_src : ¬ (target = source) := by
      intro he
      rw [he, hsrc1] at hnone
      cases hnone
    have hts : lstat fs2 target = some (FileKind.symlink source) := by
      rw [hfs2, lstat_cons _ _ _ _ htgt_ne, if_pos rfl]
    have hss : lstat fs2 source = some (FileKind.file c) := by
      rw [hfs2, lstat_cons _ _ _ _ hsrc_ne, if_neg htne_src]
      exact hsrc1
    have hex2 : pathExists fs2 target = true := by
      unfold pathExists
      rw [show (64 : Nat) = 63 + 1 from rfl, resolveK_succ_symlink 63 hts,
        show (63 : Nat) = 62 + 1 from rfl, resolveK_succ_file 62 hss]
      rfl
    have hsym2 : is_symlink fs2 target = true := by simp [is_symlink, hts]
    simp [determine_operation, hex2, hsym2, read_link, hts]

/-- Witness for C3 at the nvim-style scenario of the spec. -/
theorem create_then_replan_already_linked_w :
    determine_operation c3fsAfter ["pkg".toList, "f".toList]
      ["t".toList, "f".toList] = Except.ok (OpType.Skip reasonAlreadyLinked) :=
  (create_then_replan_already_linked c3fs ["pkg".toList, "f".toList]
    ["t".toList, "f".toList] [] c3fsAfter
    [Msg.created ["t".toList, "f".toList] ["pkg".toList, "f".toList]]
    (by decide) (by decide) (by decide)).1

/-- Helper for C10: no operation emitted by the scanner walk has a source
whose final component is `.stow-local-ignore`, at any depth. -/
theorem scan_go_skips_ignore_file (fuel : Nat) :
    ∀ (fs : FS) (root cur tgt : FsPath) (ign : List Str) (names : List Str)
      (ops : List SymlinkOp),
      scan_go fuel fs root cur tgt ign names = Except.ok ops →
      ∀ op ∈ ops, op.source.getLast? ≠ some dotStowLocalIgnore := by
  induction fuel with
  | zero =>
    intro fs root cur tgt ign names ops h
    simp [scan_go] at h
  | succ fuel ih =>
    intro fs root cur tgt ign names ops h
    cases names with
    | nil =>
      simp only [scan_go] at h
      injection h with h
      subst h
      intro op hop
      simp at hop
    | cons name rest =>
      simp only [scan_go] at h
      by_cases hname : name = dotStowLocalIgnore
      · rw [if_pos hname] at h
        exact ih fs root cur tgt ign rest ops h
      · rw [if_neg hname] at h
        rcases hsp : stripPref root (cur ++ [name]) with _ | rel <;>
          rw [hsp] at h
        · simp at h
        · simp only [] at h
          by_cases hig : is_ignored rel ign
          · rw [if_pos hig] at h
            rcases hr : scan_go fuel fs root cur tgt ign rest with e | tl <;>
              rw [hr] at h
            · simp at h
            · simp only [] at h
              injection h with h
              subst h
              intro op hop
              rcases List.mem_cons.mp hop with hop | hop
              · subst hop
                show (cur ++ [name]).getLast? ≠ some dotStowLocalIgnore
                rw [List.getLast?_concat]
                intro hcon
                injection hcon with hcon
                exact hname hcon
              · exact ih fs root cur tgt ign rest tl hr op hop
          · rw [if_neg hig] at h
            by_cases hd : is_dir fs (cur ++ [name])
            · rw [if_pos hd] at h
              rcases hsub : scan_go fuel fs root (cur ++ [name]) tgt ign
                  (read_dir fs (cur ++ [name])) with e | sub <;> rw [hsub] at h
              · simp at h
              · simp only [] at h
                rcases hr : scan_go fuel fs root cur tgt ign rest with e | tl <;>
                  rw [hr] at h
                · simp at h
                · simp only [] at h
                  injection h with h
                  subst h
                  intro op hop
                  rcases List.mem_append.mp hop with hop | hop
                  · exact ih fs root (cur ++ [name]) tgt ign _ sub hsub op hop
                  · exact ih fs root cur tgt ign rest tl hr op hop
            · rw [if_neg hd] at h
              rcases hdet : determine_operation fs (cur ++ [name]) (tgt ++ rel)
                  with e | opk <;> rw [hdet] at h
              · simp at h
              · simp only [] at h
                rcases hr : scan_go fuel fs root cur tgt ign rest with e | tl <;>
                  rw [hr] at h
                · simp at h
                · simp only [] at h
                  injection h with h
                  subst h
                  intro op hop
                  rcases List.mem_cons.mp hop with hop | hop
                  · subst hop
                    show (cur ++ [name]).getLast? ≠ some dotStowLocalIgnore
                    rw [List.getLast?_concat]
                    intro hcon
                    injection hcon with hcon
                    exact hname hcon
                  · exact ih fs root cur tgt ign rest tl hr op hop

/-- C10: a Planner walk never emits an operation for an entry named
`.stow-local-ignore`, at any depth of the package tree. -/
theorem scan_package_skips_ignore_file_every_depth (fuel : Nat) (fs : FS)
    (root cur tgt : FsPath) (ign : List Str) (ops : List SymlinkOp)
    (h : scan_package_recursive fuel fs root cur tgt ign = Except.ok ops) :
    ∀ op ∈ ops, op.source.getLast? ≠ some dotStowLocalIgnore :=
  scan_go_skips_ignore_file fuel fs root cur tgt ign _ ops h

/-- Witness for C10: the emitted skip operation for the file inside the
subdirectory (which sits next to a nested ignore file) is not the ignore
file itself. -/
theorem scan_package_skips_ignore_file_every_depth_w :
    (SymlinkOp.mk ["pkg".toList, "d".toList, "a.tmp".toList]
      ["t".toList, "d".toList, "a.tmp".toList]
      (OpType.Skip reasonIgnored)).source.getLast? ≠ some dotStowLocalIgnore :=
  scan_package_skips_ignore_file_every_depth 9 c10fs ["pkg".toList]
    ["pkg".toList] ["t".toList] ["*.tmp".toList] c10ops (by decide)
    ⟨["pkg".toList, "d".toList, "a.tmp".toList],
     ["t".toList, "d".toList, "a.tmp".toList], OpType.Skip reasonIgnored⟩
    (by decide)

/-! ## C4: the ignore matcher -/

theorem splitChar_sepfree (sep : Char) (s : Str) (h : ∀ x ∈ s, x ≠ sep) :
    splitChar sep s = [s] := by
  induction s with
  | nil => rfl
  | cons c rest ih =>
    have hc : ¬ (c = sep) := h c (List.mem_cons_self c rest)
    have hr := ih (fun x hx => h x (List.mem_cons_of_mem c hx))
    simp [splitChar, hc, hr]

theorem splitChar_prepend (sep : Char) (pre suf : Str)
    (h : ∀ x ∈ pre, x ≠ sep) :
    splitChar sep (pre ++ sep :: suf) = pre :: splitChar sep suf := by
  induction pre with
  | nil => simp [splitChar]
  | cons c rest ih =>
    have hc : ¬ (c = sep) := h c (List.mem_cons_self c rest)
    have hr := ih (fun x hx => h x (List.mem_cons_of_mem c hx))
    simp [splitChar, hc, hr]

theorem glob_go_two (text pre suf : Str) :
    glob_go text [pre, suf] 0 2 0 =
      (pre.isPrefixOf text && suf.isSuffixOf (text.drop pre.length)) := by
  by_cases hpre : pre = []
  · subst hpre
    by_cases hsuf : suf = []
    · subst hsuf
      simp [glob_go]
    · simp [glob_go, hsuf]
  · by_cases hp : pre.isPrefixOf text
    · by_cases hsuf : suf = []
      · subst hsuf
        simp [glob_go, hpre, hp]
      · simp [glob_go, hpre, hp, hsuf]
    · simp [glob_go, hpre, hp]

theorem glob_match_single_star (text pre suf : Str)
    (hpre : ∀ x ∈ pre, x ≠ '*') (hsuf : ∀ x ∈ suf, x ≠ '*') :
    glob_match text (pre ++ '*' :: suf) =
      (pre.isPrefixOf text && suf.isSuffixOf (text.drop pre.length)) := by
  have hsplit : splitChar '*' (pre ++ '*' :: suf) = [pre, suf] := by
    rw [splitChar_prepend _ _ _ hpre, splitChar_sepfree _ _ hsuf]
  simp only [glob_match, hsplit]
  simp only [List.length_cons, List.length_nil]
  have : ¬ ([pre, suf] = ([] : List Str)) := by simp
  rw [if_neg this]
  exact glob_go_two text pre suf

/-- C4 (amended): a rule with exactly one `*` (prefix and suffix
wildcard-free) matches a path exactly when the path's string form starts
with the prefix and the remainder after the prefix ends with the suffix
(so an overlapping suffix does not count), or when the final path segment
equals the rule verbatim; a wildcard-free rule matches exactly when it is a
substring of the path's string form or equals the final path segment. -/
theorem is_ignored_characterization (p : FsPath) (pre suf rule : Str)
    (hw : rule = pre ++ '*' :: suf)
    (hpre : ∀ x ∈ pre, x ≠ '*') (hsuf : ∀ x ∈ suf, x ≠ '*') :
    (is_ignored p [rule] =
      (pre.isPrefixOf (pathStr p) && suf.isSuffixOf ((pathStr p).drop pre.length)
        || decide (file_name p = some rule))) ∧
    (∀ lit : Str, strContainsChar lit '*' = false →
      is_ignored p [lit] =
        (strContainsSub (pathStr p) lit || decide (file_name p = some lit))) := by
  constructor
  · subst hw
    have hc : strContainsChar (pre ++ '*' :: suf) '*' = true := by
      simp [strContainsChar]
    simp only [is_ignored, List.any_cons, List.any_nil, Bool.or_false, hc,
      if_true, ite_true]
    rw [glob_match_single_star _ _ _ hpre hsuf]
    cases hfn : file_name p <;> simp
  · intro lit hlit
    simp only [is_ignored, List.any_cons, List.any_nil, Bool.or_false, hlit]
    simp only [Bool.false_eq_true, if_false, ite_false]
    cases hfn : file_name p <;> simp

/-- Counterexample to C4 as stated. First: a path that starts with a
single-wildcard rule's prefix and ends with its suffix (overlapping) yet is
not matched, because the code matches the suffix only after the prefix.
Second: the literal rule `notes.backup` matches `notes.backup2`, whose
final segment differs, because literal rules are substring checks — not
"only that exact filename". Third: a wildcard rule also matches by
verbatim equality with the final segment even when the prefix check
fails. -/
theorem is_ignored_claimed_form_counterexample :
    (("ab".toList).isPrefixOf (pathStr ["aba".toList]) = true ∧
     ("ba".toList).isSuffixOf (pathStr ["aba".toList]) = true ∧
     is_ignored ["aba".toList] ["ab*ba".toList] = false) ∧
    (is_ignored ["notes.backup2".toList] ["notes.backup".toList] = true ∧
     file_name ["notes.backup2".toList] ≠ some ("notes.backup".toList)) ∧
    (is_ignored ["dir".toList, "a*b".toList] ["a*b".toList] = true ∧
     ("a".toList).isPrefixOf (pathStr ["dir".toList, "a*b".toList]) = false) := by
  decide

/-- Witness for the amended C4 at the spec's concrete examples: `*.tmp`
matches `foo.tmp` and `dir/bar.tmp` but not `foo.tmpx`, and the literal
rule `notes.backup` matches the file of that exact name. -/
theorem is_ignored_characterization_w :
    is_ignored ["foo.tmp".toList] ["*.tmp".toList] = true ∧
    is_ignored ["dir".toList, "bar.tmp".toList] ["*.tmp".toList] = true ∧
    is_ignored ["foo.tmpx".toList] ["*.tmp".toList] = false ∧
    is_ignored ["notes.backup".toList] ["notes.backup".toList] = true := by
  refine ⟨?_, ?_, ?_, ?_⟩
  · have h := (is_ignored_characterization ["foo.tmp".toList]
      [] (".tmp".toList) ("*.tmp".toList) (by decide) (by decide) (by decide)).1
    rw [h]
    decide
  · have h := (is_ignored_characterization ["dir".toList, "bar.tmp".toList]
      [] (".tmp".toList) ("*.tmp".toList) (by decide) (by decide) (by decide)).1
    rw [h]
    decide
  · have h := (is_ignored_characterization ["foo.tmpx".toList]
      [] (".tmp".toList) ("*.tmp".toList) (by decide) (by decide) (by decide)).1
    rw [h]
    decide
  · have h := (is_ignored_characterization ["notes.backup".toList]
      [] [] ("*".toList) (by decide) (by decide) (by decide)).2
      ("notes.backup".toList) (by decide)
    rw [h]
    decide

/-- Witness for C8: a two-operation dry run returns two messages naming
the operations' targets in order. -/
theorem execute_operations_one_result_per_op_w :
    ([Msg.dryRunCreate ["t".toList, "f".toList] ["pkg".toList, "f".toList],
      Msg.dryRunCreate ["t".toList, "g".toList] ["pkg".toList, "g".toList]].map
        Msg.target = c2ops.map SymlinkOp.target) ∧
    ([Msg.dryRunCreate ["t".toList, "f".toList] ["pkg".toList, "f".toList],
      Msg.dryRunCreate ["t".toList, "g".toList] ["pkg".toList, "g".toList]].length
        = c2ops.length) :=
  execute_operations_one_result_per_op c2ops c2fs true c2fs
    [Msg.dryRunCreate ["t".toList, "f".toList] ["pkg".toList, "f".toList],
     Msg.dryRunCreate ["t".toList, "g".toList] ["pkg".toList, "g".toList]]
    (by decide)

end Slinky
